import Mathlib

/-!
Verification of the generic chapter-archival pipeline of the `scrape`
repository.  The Go sources are shallowly embedded below: byte buffers are
`List Nat` of byte values, file systems are explicit lists of entries, and
the network is an oracle mapping an attempt number to its outcome.
-/

namespace Scrape

/-! ### Byte-level helpers (Go `bytes` package) -/

/-- Model of Go `bytes.HasPrefix(data, pre)` with the arguments flipped:
`bytesHasPre pre data` is true when `data` begins with `pre`. -/
def bytesHasPre (pre data : List Nat) : Bool :=
  pre.isPrefixOf data

/-- Byte values of an ASCII string, for signature constants such as "GIF87a". -/
def asciiBytes (s : String) : List Nat :=
  s.data.map (fun c => c.toNat)

/-- Model of Go `bytes.Contains(hay, needle)`: `bytesContains needle hay`
is true when `needle` occurs as a contiguous sublist of `hay`. -/
def bytesContains (needle : List Nat) : List Nat → Bool
  | [] => needle.isEmpty
  | h :: t => needle.isPrefixOf (h :: t) || bytesContains needle t

/-! ### Format Detector: `parser.DetectImageFormat` (src/parser/parser.go:215-234)

The Go function returns `(string, error)`; this is modelled with `Except`,
keeping the exact error messages of the source. -/

def DetectImageFormat (data : List Nat) : Except String String :=
  if data.length < 12 then
    .error "data too short to determine format"
  else if bytesHasPre [0xFF, 0xD8, 0xFF] data then
    .ok "jpeg"
  else if bytesHasPre [0x89, 0x50, 0x4E, 0x47] data then
    .ok "png"
  else if bytesHasPre (asciiBytes "GIF87a") data || bytesHasPre (asciiBytes "GIF89a") data then
    .ok "gif"
  else if bytesHasPre (asciiBytes "RIFF") data && bytesHasPre (asciiBytes "WEBP") (data.drop 8) then
    .ok "webp"
  else
    .error "unknown image format"

/-- A nonempty byte-signature match pins down the first byte of the buffer. -/
lemma bytesHasPre_head {a : Nat} {p data : List Nat} (h : bytesHasPre (a :: p) data = true) :
    ∃ t, data = a :: t := by
  cases data with
  | nil => simp [bytesHasPre, List.isPrefixOf] at h
  | cons b t =>
    refine ⟨t, ?_⟩
    simp only [bytesHasPre, List.isPrefixOf, Bool.and_eq_true, beq_iff_eq] at h
    rw [h.1]

/-- Two signature matches on the same buffer must agree on the first byte. -/
lemma bytesHasPre_head_eq {a b : Nat} {p q data : List Nat}
    (ha : bytesHasPre (a :: p) data = true) (hb : bytesHasPre (b :: q) data = true) :
    a = b := by
  obtain ⟨t, rfl⟩ := bytesHasPre_head ha
  obtain ⟨t', ht⟩ := bytesHasPre_head hb
  exact (List.cons.injEq .. ▸ ht).1

/-- Signatures with different first bytes are mutually exclusive. -/
lemma bytesHasPre_false_of_head_ne {a b : Nat} (hne : a ≠ b) {p q data : List Nat}
    (h : bytesHasPre (a :: p) data = true) : bytesHasPre (b :: q) data = false := by
  cases hb : bytesHasPre (b :: q) data with
  | false => rfl
  | true => exact absurd (bytesHasPre_head_eq h hb) hne

/-- Claim C8, counterexample.  A 12-byte buffer beginning with `89 50 4E 47`
whose bytes 4-7 are NOT `0D 0A 1A 0A` is still classified as png: the code
checks only the first 4 signature bytes, not the 8-byte PNG signature the
claim states. -/
theorem detectImageFormat_png_four_byte_counterexample :
    DetectImageFormat [0x89, 0x50, 0x4E, 0x47, 0, 0, 0, 0, 0, 0, 0, 0] = .ok "png" ∧
    [0x89, 0x50, 0x4E, 0x47, 0, 0, 0, 0, 0, 0, 0, 0].take 8 ≠
      [0x89, 0x50, 0x4E, 0x47, 0x0D, 0x0A, 0x1A, 0x0A] := by
  exact ⟨rfl, by decide⟩

/-- Claim C8 (amended: the PNG signature actually checked is the 4 leading
bytes `89 50 4E 47`, not 8 bytes).  `DetectImageFormat` fails on buffers of
fewer than 12 bytes, and otherwise classifies by signature: jpeg iff the
leading 3 bytes are `FF D8 FF`, png iff the leading 4 bytes are
`89 50 4E 47`, gif iff the leading 6 bytes spell GIF87a or GIF89a, webp iff
bytes 0-3 spell RIFF and bytes 8-11 spell WEBP, and any other buffer fails
with the unknown-format error. -/
theorem detectImageFormat_signature_table (data : List Nat) :
    (data.length < 12 →
      DetectImageFormat data = .error "data too short to determine format") ∧
    (12 ≤ data.length →
      ((DetectImageFormat data = .ok "jpeg") ↔
        bytesHasPre [0xFF, 0xD8, 0xFF] data = true) ∧
      ((DetectImageFormat data = .ok "png") ↔
        bytesHasPre [0x89, 0x50, 0x4E, 0x47] data = true) ∧
      ((DetectImageFormat data = .ok "gif") ↔
        (bytesHasPre (asciiBytes "GIF87a") data = true ∨
         bytesHasPre (asciiBytes "GIF89a") data = true)) ∧
      ((DetectImageFormat data = .ok "webp") ↔
        (bytesHasPre (asciiBytes "RIFF") data = true ∧
         bytesHasPre (asciiBytes "WEBP") (data.drop 8) = true)) ∧
      (bytesHasPre [0xFF, 0xD8, 0xFF] data = false →
       bytesHasPre [0x89, 0x50, 0x4E, 0x47] data = false →
       bytesHasPre (asciiBytes "GIF87a") data = false →
       bytesHasPre (asciiBytes "GIF89a") data = false →
       (bytesHasPre (asciiBytes "RIFF") data = false ∨
        bytesHasPre (asciiBytes "WEBP") (data.drop 8) = false) →
       DetectImageFormat data = .error "unknown image format")) := by
  have hG87 : asciiBytes "GIF87a" = 0x47 :: [0x49, 0x46, 0x38, 0x37, 0x61] := rfl
  have hG89 : asciiBytes "GIF89a" = 0x47 :: [0x49, 0x46, 0x38, 0x39, 0x61] := rfl
  have hRIF : asciiBytes "RIFF" = 0x52 :: [0x49, 0x46, 0x46] := rfl
  constructor
  · intro h
    simp [DetectImageFormat, h]
  · intro h
    have hlen : ¬ data.length < 12 := Nat.not_lt.2 h
    by_cases hj : bytesHasPre [0xFF, 0xD8, 0xFF] data = true
    · have hpf : bytesHasPre [0x89, 0x50, 0x4E, 0x47] data = false :=
        bytesHasPre_false_of_head_ne (by decide) hj
      have h87f : bytesHasPre (asciiBytes "GIF87a") data = false :=
        hG87 ▸ bytesHasPre_false_of_head_ne (by decide) hj
      have h89f : bytesHasPre (asciiBytes "GIF89a") data = false :=
        hG89 ▸ bytesHasPre_false_of_head_ne (by decide) hj
      have hrf : bytesHasPre (asciiBytes "RIFF") data = false :=
        hRIF ▸ bytesHasPre_false_of_head_ne (by decide) hj
      simp [DetectImageFormat, hlen, hj, hpf, h87f, h89f, hrf]
    · simp only [Bool.not_eq_true] at hj
      by_cases hp : bytesHasPre [0x89, 0x50, 0x4E, 0x47] data = true
      · have h87f : bytesHasPre (asciiBytes "GIF87a") data = false :=
          hG87 ▸ bytesHasPre_false_of_head_ne (by decide) hp
        have h89f : bytesHasPre (asciiBytes "GIF89a") data = false :=
          hG89 ▸ bytesHasPre_false_of_head_ne (by decide) hp
        have hrf : bytesHasPre (asciiBytes "RIFF") data = false :=
          hRIF ▸ bytesHasPre_false_of_head_ne (by decide) hp
        simp [DetectImageFormat, hlen, hj, hp, h87f, h89f, hrf]
      · simp only [Bool.not_eq_true] at hp
        by_cases h87 : bytesHasPre (asciiBytes "GIF87a") data = true
        · have hrf : bytesHasPre (asciiBytes "RIFF") data = false :=
            hRIF ▸ bytesHasPre_false_of_head_ne (by decide) (hG87 ▸ h87)
          simp [DetectImageFormat, hlen, hj, hp, h87, hrf]
        · simp only [Bool.not_eq_true] at h87
          by_cases h89 : bytesHasPre (asciiBytes "GIF89a") data = true
          · have hrf : bytesHasPre (asciiBytes "RIFF") data = false :=
              hRIF ▸ bytesHasPre_false_of_head_ne (by decide) (hG89 ▸ h89)
            simp [DetectImageFormat, hlen, hj, hp, h87, h89, hrf]
          · simp only [Bool.not_eq_true] at h89
            by_cases hw : (bytesHasPre (asciiBytes "RIFF") data &&
                bytesHasPre (asciiBytes "WEBP") (data.drop 8)) = true
            · rw [Bool.and_eq_true] at hw
              obtain ⟨hr, hw8⟩ := hw
              simp [DetectImageFormat, hlen, hj, hp, h87, h89, hr, hw8]
            · simp only [Bool.not_eq_true, Bool.and_eq_false_iff] at hw
              rcases hw with hw | hw <;>
                simp [DetectImageFormat, hlen, hj, hp, h87, h89, hw, ← Bool.and_eq_true]

/-- Witness for the amended C8 theorem at a concrete jpeg buffer. -/
theorem detectImageFormat_signature_table_witness :
    DetectImageFormat [0xFF, 0xD8, 0xFF, 0, 0, 0, 0, 0, 0, 0, 0, 0] = .ok "jpeg" :=
  ((detectImageFormat_signature_table
    [0xFF, 0xD8, 0xFF, 0, 0, 0, 0, 0, 0, 0, 0, 0]).2 (by decide)).1.mpr (by decide)

/-! ### Image Normalizer: the conversion step of `parser.DownloadAndConvertToJPG`
(src/parser/parser.go:140-212, mirrored by the rizzfables copy in
src/unnamed/part_000:166-241).

After the HTTP download, the function detects the format of the received
bytes and either saves them unchanged (jpeg), decodes and re-encodes them as
JPEG at quality 90 (png/gif via the generic decoder, webp via the dedicated
decoder), or fails.  The value below records which of those disjoint actions
the code takes on a given buffer. -/

inductive NormalizeAction where
  /-- Go `os.WriteFile(outputFile, imgBytes, 0644)`: the raw input bytes are
  written unchanged. -/
  | writeRaw (bytes : List Nat)
  /-- The buffer is decoded with the decoder for `fmt` and re-encoded as
  JPEG with quality 90. -/
  | reencode (fmt : String) (quality : Nat)
  /-- The function returns an error built from message `msg`. -/
  | failed (msg : String)
  deriving DecidableEq

def convertToJPGStep (imgBytes : List Nat) : NormalizeAction :=
  match DetectImageFormat imgBytes with
  | .error _ => .failed "failed to detect image format"
  | .ok format =>
    if format = "jpeg" then
      .writeRaw imgBytes
    else if format = "png" ∨ format = "gif" then
      .reencode format 90
    else if format = "webp" then
      .reencode "webp" 90
    else
      .failed ("unsupported image format: " ++ format)

/-- Claim C7: whenever the detected format of a buffer is jpeg, the
normalizer writes the input bytes back unchanged, byte for byte, and never
takes the decode/re-encode path. -/
theorem convertToJPG_jpeg_passthrough (imgBytes : List Nat)
    (h : DetectImageFormat imgBytes = .ok "jpeg") :
    convertToJPGStep imgBytes = .writeRaw imgBytes := by
  simp [convertToJPGStep, h]

/-- Witness for C7 at a concrete jpeg buffer. -/
theorem convertToJPG_jpeg_passthrough_witness :
    convertToJPGStep [0xFF, 0xD8, 0xFF, 1, 2, 3, 4, 5, 6, 7, 8, 9] =
      .writeRaw [0xFF, 0xD8, 0xFF, 1, 2, 3, 4, 5, 6, 7, 8, 9] :=
  convertToJPG_jpeg_passthrough [0xFF, 0xD8, 0xFF, 1, 2, 3, 4, 5, 6, 7, 8, 9] rfl

/-! ### `parser.DecodeImageToPng` (src/parser/parser.go:373-421)

The function returns an `(image.Image, error)` pair.  The image is opaque
here: the model returns `some tag` where `tag` names the decoder that
produced the image, and `none` where the Go code returns a nil image.  The
behaviour of the external decoders (`jpeg.Decode`, `png.Decode`,
`webp.Decode`) is an oracle argument `decodeOk : String → Bool` telling
whether the decoder named by the tag accepts the buffer. -/

def DecodeImageToPng (data : List Nat) (decodeOk : String → Bool) :
    Option String × Option String :=
  if data.length < 12 then
    (none, none)
  else if bytesContains (asciiBytes "<html") (data.take (min 512 data.length)) then
    (none, none)
  else if 3 ≤ data.length ∧ bytesHasPre [0xFF, 0xD8, 0xFF] data then
    if decodeOk "jpeg" then (some "jpeg", none) else (none, none)
  else if 8 ≤ data.length ∧
      data.take 8 = [0x89, 0x50, 0x4E, 0x47, 0x0D, 0x0A, 0x1A, 0x0A] then
    if decodeOk "png" then (some "png", none) else (none, none)
  else if 12 ≤ data.length ∧ data.take 4 = asciiBytes "RIFF" ∧
      (data.drop 8).take 4 = asciiBytes "WEBP" then
    if decodeOk "webp" then (some "webp", none) else (none, none)
  else
    (none, none)

/-- Claim C10: `DecodeImageToPng` never returns a non-nil error — on every
input the error component is `none` — and each failure path (too-small
buffer, `<html` in the first 512 bytes, unrecognized format, decoder
rejection) yields a nil image as well, so failure is detectable only through
the nil image. -/
theorem decodeImageToPng_error_always_nil (data : List Nat) (decodeOk : String → Bool) :
    (DecodeImageToPng data decodeOk).2 = none ∧
    (data.length < 12 → DecodeImageToPng data decodeOk = (none, none)) ∧
    (bytesContains (asciiBytes "<html") (data.take (min 512 data.length)) = true →
      DecodeImageToPng data decodeOk = (none, none)) ∧
    (∀ fmt, (DecodeImageToPng data decodeOk).1 = some fmt → decodeOk fmt = true) := by
  refine ⟨?_, ?_, ?_, ?_⟩
  · unfold DecodeImageToPng
    split_ifs <;> rfl
  · intro h
    simp [DecodeImageToPng, h]
  · intro h
    unfold DecodeImageToPng
    split_ifs <;> simp_all
  · intro fmt h
    unfold DecodeImageToPng at h
    split_ifs at h <;> simp_all

/-- Witness for C10 at a concrete undersized buffer. -/
theorem decodeImageToPng_error_always_nil_witness :
    DecodeImageToPng [1, 2, 3] (fun _ => true) = (none, none) :=
  (decodeImageToPng_error_always_nil [1, 2, 3] (fun _ => true)).2.1 (by decide)

/-! ### `parser.CBZExists` (src/parser/parser.go:62-82)

`CBZExists` builds a candidate file name — `fmt.Sprintf("ch%02d.cbz", n)`
for `n < 10`, `fmt.Sprintf("ch%d.cbz", n)` otherwise — and stats it
(`filepath.Join(".", name)` is just the name).  The file system is an
oracle mapping names to existence. -/

/-- Model of Go `fmt.Sprintf("%02d", n)`: decimal rendering zero-padded on
the left to a minimum width of 2. -/
def sprintf02d (n : Int) : String :=
  if 0 ≤ n ∧ n < 10 then "0" ++ toString n else toString n

/-- The file name probed by `CBZExists` for a given chapter number. -/
def cbzProbeName (chapterNumber : Int) : String :=
  if chapterNumber < 10 then "ch" ++ sprintf02d chapterNumber ++ ".cbz"
  else "ch" ++ toString chapterNumber ++ ".cbz"

def CBZExists (fileOnDisk : String → Bool) (chapterNumber : Int) : Bool :=
  fileOnDisk (cbzProbeName chapterNumber)

/-- Model of the three-digit padding `fmt.Sprintf("ch%03d.cbz", n)` used by
the other chapter-key producers, for comparison in C9. -/
def cbzThreeDigitName (n : Int) : String :=
  if 0 ≤ n ∧ n < 10 then "ch00" ++ toString n ++ ".cbz"
  else if 0 ≤ n ∧ n < 100 then "ch0" ++ toString n ++ ".cbz"
  else "ch" ++ toString n ++ ".cbz"

/-- Claim C9: for chapter numbers 0 through 9 `CBZExists` probes the
two-digit-padded name `ch0<d>.cbz`, for 10 and above the unpadded
`ch<n>.cbz`, and for numbers below 100 it never probes the three-digit
`ch%03d.cbz` name used elsewhere (such as `ch005.cbz`). -/
theorem cbzExists_probe_names (fileOnDisk : String → Bool) (n : Int) :
    (0 ≤ n → n < 10 →
      CBZExists fileOnDisk n = fileOnDisk ("ch0" ++ toString n ++ ".cbz")) ∧
    (10 ≤ n → CBZExists fileOnDisk n = fileOnDisk ("ch" ++ toString n ++ ".cbz")) ∧
    (0 ≤ n → n < 100 → cbzProbeName n ≠ cbzThreeDigitName n) := by
  refine ⟨?_, ?_, ?_⟩
  · intro h0 h10
    simp [CBZExists, cbzProbeName, sprintf02d, h0, h10, ← String.append_assoc]
  · intro h10
    have : ¬ n < 10 := by omega
    simp [CBZExists, cbzProbeName, this]
  · intro h0 h100
    have h0' : (0 : Int) ≤ 99 := by omega
    interval_cases n <;> decide

/-- Witness for C9 at chapter 5. -/
theorem cbzExists_probe_names_witness :
    CBZExists (fun name => name = "ch05.cbz") 5 = true ∧
    cbzProbeName 5 ≠ cbzThreeDigitName 5 := by
  refine ⟨?_, (cbzExists_probe_names (fun name => name = "ch05.cbz") 5).2.2 (by decide) (by decide)⟩
  rw [(cbzExists_probe_names (fun name => name = "ch05.cbz") 5).1 (by decide) (by decide)]
  decide

/-! ### Chapter Identifier

`parser.CreateFilename` (src/parser/parser.go:617-641) replaces `-` and `_`
by `.`, parses the result with `strconv.ParseFloat`, and renders either
`ch%03d.cbz` (whole chapter) or `ch` + `%03.2f` with trailing zero and dot
trimmed (fractional chapter).

Modelling notes, faithful to the source on the inputs the theorems quantify
over: `ParseFloat` is modelled on its decimal-literal forms
`digits [. digits]` (after separator replacement no `-` can remain, so no
negative value can arise; the textual forms `inf`/`nan`, exponents and hex
floats accepted by Go are outside the model, and the theorems below
restrict their inputs accordingly).  The `%03.2f` rendering rounds the
value to two decimals; the model truncates fractional digits beyond the
second, and every theorem below quantifies only over tokens with at most
two fractional digits, where truncation and float64 rounding agree
exactly. -/

/-- A parsed chapter token: the integer part and the fractional digits. -/
structure ChapterTok where
  intPart : Nat
  fracDigits : List Nat
  deriving DecidableEq

/-- Model of `strings.ReplaceAll(s, "-", ".")` then
`strings.ReplaceAll(s, "_", ".")` (src/parser/parser.go:619-620). -/
def normalizeSeps (s : String) : String :=
  String.mk (s.data.map (fun c => if c = '-' then '.' else if c = '_' then '.' else c))

/-- Numeric value of a digit character. -/
def digitVal (c : Char) : Nat := c.toNat - 48

/-- Value of a list of decimal digits, most significant first. -/
def digitsVal (ds : List Nat) : Nat := ds.foldl (fun acc d => acc * 10 + d) 0

/-- Decimal-literal fragment of `strconv.ParseFloat`: accepts
`digits [. digits]` with at least one digit, rejecting everything else. -/
def parseChapterToken (s : String) : Option ChapterTok :=
  let cs := s.data
  let ip := cs.takeWhile (fun c => c.isDigit)
  match cs.dropWhile (fun c => c.isDigit) with
  | [] => if ip.isEmpty then none else some ⟨digitsVal (ip.map digitVal), []⟩
  | '.' :: fp =>
    if fp.all (fun c => c.isDigit) then
      if ip.isEmpty ∧ fp.isEmpty then none
      else some ⟨digitsVal (ip.map digitVal), fp.map digitVal⟩
    else none
  | _ => none

/-- Decimal rendering of a natural number (Go `%d`), fuel-based. -/
def decRenderAux : Nat → Nat → List Char → List Char
  | 0, _, acc => acc
  | fuel + 1, n, acc =>
    if n < 10 then Nat.digitChar n :: acc
    else decRenderAux fuel (n / 10) (Nat.digitChar (n % 10) :: acc)

def decRender (n : Nat) : List Char := decRenderAux (n + 1) n []

def decString (n : Nat) : String := String.mk (decRender n)

/-- Model of `fmt.Sprintf("%03d", n)`: zero-padded to minimum width 3. -/
def pad3String (n : Nat) : String :=
  if n < 10 then "00" ++ decString n
  else if n < 100 then "0" ++ decString n
  else decString n

/-- The fraction printed by `%.2f`, in hundredths (exact for at most two
fractional digits; further digits are truncated in the model). -/
def fracHundredths : List Nat → Nat
  | [] => 0
  | [d] => d * 10
  | d1 :: d2 :: _ => d1 * 10 + d2

/-- The fractional digit string after Go trims one trailing `"0"` and then
one trailing `"."` from the `%.2f` rendering. -/
def fracRendered (f : Nat) : String :=
  if f % 10 ≠ 0 then String.mk [Nat.digitChar (f / 10), Nat.digitChar (f % 10)]
  else if f ≠ 0 then String.mk [Nat.digitChar (f / 10)]
  else "0"

def CreateFilename (inputChapterNumber : String) : String :=
  let normalized := normalizeSeps inputChapterNumber
  match parseChapterToken normalized with
  | none => "ch000.cbz"
  | some tok =>
    if tok.fracDigits.all (fun d => d = 0) then
      "ch" ++ pad3String tok.intPart ++ ".cbz"
    else
      "ch" ++ decString tok.intPart ++ "." ++
        fracRendered (fracHundredths tok.fracDigits) ++ ".cbz"

/-! ### `hls.ChapterFileName` (src/unnamed/part_000:532-539)

`fmt.Sprintf("%03s", chapterNumber)` pads the whole token string with
leading zeros to a minimum width of 3 characters, then wraps it as
`ch<padded>.cbz`. -/

def ChapterFileName (chapterNumber : String) : String :=
  let padded :=
    if chapterNumber.length < 3 then
      String.mk (List.replicate (3 - chapterNumber.length) '0') ++ chapterNumber
    else chapterNumber
  "ch" ++ padded ++ ".cbz"

/-! ### `xbato.FormatChapterMap` (src/unnamed/part_001:88-108)

Each chapter text is renamed after the first run of digits it contains
(`regexp \d+`, first match), two-digit padded when the run is a single
digit; when no digits occur at all the fallback is the lowercased text with
spaces replaced by underscores. -/

/-- First maximal run of digit characters in a character list (the first
match of the Go regexp `\d+`). -/
def firstDigitRun : List Char → Option (List Char)
  | [] => none
  | c :: t =>
    if c.isDigit then some (c :: t.takeWhile (fun d => d.isDigit))
    else firstDigitRun t

def formatChapterText (text : String) : String :=
  match firstDigitRun text.data with
  | some run =>
    let chNum := String.mk run
    let chNum := if chNum.length = 1 then "0" ++ chNum else chNum
    "ch" ++ chNum
  | none =>
    String.mk ((text.data.map Char.toLower).map (fun c => if c = ' ' then '_' else c))

def FormatChapterMap (chapters : List (String × String)) : List (String × String) :=
  chapters.map (fun p => (p.1, formatChapterText p.2))

/-! Rendering lemmas for the three-digit padded keys. -/

lemma decRenderAux_small {fuel n : Nat} (acc : List Char) (h1 : n < 10) (h2 : 1 ≤ fuel) :
    decRenderAux fuel n acc = Nat.digitChar n :: acc := by
  cases fuel with
  | zero => omega
  | succ f => simp [decRenderAux, h1]

lemma decRenderAux_step {fuel n : Nat} (acc : List Char) (hn : 10 ≤ n) :
    decRenderAux (fuel + 1) n acc = decRenderAux fuel (n / 10) (Nat.digitChar (n % 10) :: acc) := by
  simp [decRenderAux, Nat.not_lt.2 hn]

lemma decRender_lt10 {n : Nat} (h : n < 10) : decRender n = [Nat.digitChar n] :=
  decRenderAux_small [] h (by omega)

lemma decRender_lt100 {n : Nat} (h1 : 10 ≤ n) (h2 : n < 100) :
    decRender n = [Nat.digitChar (n / 10), Nat.digitChar (n % 10)] := by
  rw [decRender, decRenderAux_step [] h1]
  exact decRenderAux_small _ (by omega) (by omega)

lemma decRender_lt1000 {n : Nat} (h1 : 100 ≤ n) (h2 : n < 1000) :
    decRender n =
      [Nat.digitChar (n / 100), Nat.digitChar (n / 10 % 10), Nat.digitChar (n % 10)] := by
  obtain ⟨m, rfl⟩ : ∃ m, n = m + 1 := ⟨n - 1, by omega⟩
  rw [decRender, decRenderAux_step [] (by omega)]
  rw [decRenderAux_step _ (by omega : 10 ≤ (m + 1) / 10)]
  rw [decRenderAux_small _ (by omega : (m + 1) / 10 / 10 < 10) (by omega : 1 ≤ m)]
  rw [Nat.div_div_eq_div_mul]

lemma pad3String_data {n : Nat} (h : n ≤ 999) :
    (pad3String n).data =
      [Nat.digitChar (n / 100), Nat.digitChar (n / 10 % 10), Nat.digitChar (n % 10)] := by
  by_cases h10 : n < 10
  · have e1 : n / 100 = 0 := by omega
    have e2 : n / 10 % 10 = 0 := by omega
    have e3 : n % 10 = n := by omega
    simp [pad3String, h10, decString, decRender_lt10 h10, e1, e2, e3,
      String.data_append, Nat.digitChar]
  · by_cases h100 : n < 100
    · have e1 : n / 100 = 0 := by omega
      have e2 : n / 10 % 10 = n / 10 := by omega
      simp [pad3String, h10, h100, decString, decRender_lt100 (by omega) h100, e1, e2,
        String.data_append, Nat.digitChar]
    · simp [pad3String, h10, h100, decString,
        decRender_lt1000 (show 100 ≤ n by omega) (show n < 1000 by omega)]

/-- Strict monotonicity of `Nat.digitChar` on single digits, as a decidable
fact over `Fin 10`. -/
lemma digitChar_fin_lt : ∀ x y : Fin 10, x.1 < y.1 →
    Nat.digitChar x.1 < Nat.digitChar y.1 := by decide

/-- Strict monotonicity of `Nat.digitChar` on single digits. -/
lemma digitChar_lt_digitChar {x y : Nat} (hx : x < 10) (hy : y < 10) (h : x < y) :
    Nat.digitChar x < Nat.digitChar y :=
  digitChar_fin_lt ⟨x, hx⟩ ⟨y, hy⟩ h

lemma listLt_cons_same (c : Char) {l1 l2 : List Char} (h : l1 < l2) : c :: l1 < c :: l2 := by
  exact List.Lex.cons h

lemma listLt_cons_head {c d : Char} (h : c < d) (l1 l2 : List Char) : c :: l1 < d :: l2 := by
  exact List.Lex.rel h

/-- Lexicographic comparison of two three-digit padded keys with a common
suffix agrees with the numeric order of the values. -/
lemma pad3_digits_lt {a b : Nat} (ha : a ≤ 999) (hb : b ≤ 999) (hab : a < b)
    (suffix : List Char) :
    ([Nat.digitChar (a / 100), Nat.digitChar (a / 10 % 10), Nat.digitChar (a % 10)] ++ suffix) <
    ([Nat.digitChar (b / 100), Nat.digitChar (b / 10 % 10), Nat.digitChar (b % 10)] ++ suffix) := by
  simp only [List.cons_append, List.nil_append]
  rcases Nat.lt_trichotomy (a / 100) (b / 100) with h1 | h1 | h1
  · exact listLt_cons_head (digitChar_lt_digitChar (by omega) (by omega) h1) _ _
  · rw [h1]
    apply listLt_cons_same
    rcases Nat.lt_trichotomy (a / 10 % 10) (b / 10 % 10) with h2 | h2 | h2
    · exact listLt_cons_head (digitChar_lt_digitChar (by omega) (by omega) h2) _ _
    · rw [h2]
      apply listLt_cons_same
      have h3 : a % 10 < b % 10 := by omega
      exact listLt_cons_head (digitChar_lt_digitChar (by omega) (by omega) h3) _ _
    · omega
  · omega

/-- Whole-number chapters take the `%03d` padded branch of `CreateFilename`. -/
lemma createFilename_whole {s : String} {a : Nat}
    (h : parseChapterToken (normalizeSeps s) = some ⟨a, []⟩) :
    CreateFilename s = "ch" ++ pad3String a ++ ".cbz" := by
  simp [CreateFilename, h]

/-- Claim C1, counterexample.  Numeric order 7.5 < 8 and 999 < 1000, yet the
produced chapter keys sort the other way around, both for
`parser.CreateFilename` and for `hls.ChapterFileName`: the fractional key
`ch7.5.cbz` is not zero-padded and sorts after `ch008.cbz`, and `ch1000.cbz`
sorts before `ch999.cbz`. -/
theorem createFilename_order_counterexample :
    CreateFilename "7-5" = "ch7.5.cbz" ∧ CreateFilename "8" = "ch008.cbz" ∧
    CreateFilename "8" < CreateFilename "7-5" ∧
    CreateFilename "999" = "ch999.cbz" ∧ CreateFilename "1000" = "ch1000.cbz" ∧
    CreateFilename "1000" < CreateFilename "999" ∧
    ChapterFileName "7.5" = "ch7.5.cbz" ∧ ChapterFileName "8" = "ch008.cbz" ∧
    ChapterFileName "8" < ChapterFileName "7.5" := by
  refine ⟨rfl, rfl, ?_, rfl, rfl, ?_, rfl, rfl, ?_⟩ <;>
    rw [String.lt_iff_toList_lt] <;> decide

/-- Claim C1 (amended: restricted to whole-number chapter tokens with value
at most 999 — fractional chapters such as 7.5, and values past 999, violate
the invariant as the counterexample shows).  If two tokens parse as whole
chapter numbers `a < b ≤ 999` then the generated keys compare in the same
order lexicographically. -/
theorem createFilename_whole_number_monotone (s t : String) (a b : Nat)
    (hs : parseChapterToken (normalizeSeps s) = some ⟨a, []⟩)
    (ht : parseChapterToken (normalizeSeps t) = some ⟨b, []⟩)
    (ha : a ≤ 999) (hb : b ≤ 999) (hab : a < b) :
    CreateFilename s < CreateFilename t := by
  rw [createFilename_whole hs, createFilename_whole ht, String.lt_iff_toList_lt]
  show (("ch" ++ pad3String a ++ ".cbz").data : List Char) < ("ch" ++ pad3String b ++ ".cbz").data
  rw [String.data_append, String.data_append, String.data_append, String.data_append,
    pad3String_data ha, pad3String_data hb]
  exact listLt_cons_same 'c' (listLt_cons_same 'h' (pad3_digits_lt ha hb hab _))

/-- Witness for the amended C1 theorem at the tokens "7" and "8". -/
theorem createFilename_whole_number_monotone_witness :
    CreateFilename "7" < CreateFilename "8" :=
  createFilename_whole_number_monotone "7" "8" 7 8 (by decide) (by decide)
    (by omega) (by omega) (by omega)

/-! Lemmas for C6: tokens without any digit cannot be parsed. -/

lemma parseChapterToken_none_of_noDigit {s : String}
    (h : ∀ c ∈ s.data, c.isDigit = false) : parseChapterToken s = none := by
  unfold parseChapterToken
  cases hd : s.data with
  | nil => simp
  | cons c t =>
    have hc : c.isDigit = false := h c (hd ▸ List.mem_cons_self ..)
    have ht : ∀ x ∈ t, x.isDigit = false := fun x hx => h x (hd ▸ List.mem_cons_of_mem _ hx)
    by_cases hdot : c = '.'
    · subst hdot
      cases t with
      | nil => simp [List.takeWhile, List.dropWhile, hc]
      | cons c2 t2 =>
        have hc2 : c2.isDigit = false := ht c2 (List.mem_cons_self ..)
        simp [List.takeWhile, List.dropWhile, hc, hc2]
    · simp only [List.takeWhile, List.dropWhile, hc]
      split
      · simp_all
      · rename_i fp heq
        exact absurd (List.cons.injEq .. ▸ heq).1 hdot
      · rfl

lemma noDigit_normalizeSeps {s : String} (h : ∀ c ∈ s.data, c.isDigit = false) :
    ∀ c ∈ (normalizeSeps s).data, c.isDigit = false := by
  intro c hc
  simp only [normalizeSeps] at hc
  obtain ⟨c0, hc0, rfl⟩ := List.mem_map.1 hc
  by_cases h1 : c0 = '-'
  · simp [h1]
  · by_cases h2 : c0 = '_'
    · simp [h1, h2]
    · simpa [h1, h2] using h c0 hc0

lemma firstDigitRun_none {cs : List Char} (h : ∀ c ∈ cs, c.isDigit = false) :
    firstDigitRun cs = none := by
  induction cs with
  | nil => rfl
  | cons c t ih =>
    have hc : c.isDigit = false := h c (List.mem_cons_self ..)
    simp only [firstDigitRun, hc]
    exact ih fun x hx => h x (List.mem_cons_of_mem _ hx)

/-- Claim C6, counterexample.  A token with no parseable integer component
does not yield an error-signaling result: `CreateFilename` logs and returns
the fallback key `ch000.cbz`, which is exactly the key produced for the
legitimate chapter token "0", and `FormatChapterMap` falls back to a
text-derived name rather than an error. -/
theorem createFilename_no_error_counterexample :
    CreateFilename "abc" = "ch000.cbz" ∧
    CreateFilename "abc" = CreateFilename "0" ∧
    FormatChapterMap [("2013166", "Extra Story")] = [("2013166", "extra_story")] :=
  ⟨rfl, rfl, rfl⟩

/-- Claim C6 (amended: instead of an error-signaling result, the raw token
with no parseable numeric component produces a fallback value:
`CreateFilename` returns the fixed key `ch000.cbz` — indistinguishable from
the key of chapter 0 — and `FormatChapterMap`'s per-entry renaming returns
the lowercased text with spaces replaced by underscores).  The quantifier
runs over digit-free tokens; the `CreateFilename` part additionally assumes
the token letter-free, keeping it inside the decimal-literal fragment of
`strconv.ParseFloat` that the embedding models (`inf`/`nan` forms are
excluded). -/
theorem chapterKey_no_numeric_fallback (s t : String)
    (hsd : ∀ c ∈ s.data, c.isDigit = false)
    (_hsa : ∀ c ∈ s.data, c.isAlpha = false)
    (htd : ∀ c ∈ t.data, c.isDigit = false) :
    CreateFilename s = "ch000.cbz" ∧
    formatChapterText t =
      String.mk ((t.data.map Char.toLower).map (fun c => if c = ' ' then '_' else c)) := by
  constructor
  · have hp : parseChapterToken (normalizeSeps s) = none :=
      parseChapterToken_none_of_noDigit (noDigit_normalizeSeps hsd)
    simp [CreateFilename, hp]
  · simp [formatChapterText, firstDigitRun_none htd]

/-- Witness for the amended C6 theorem at the tokens "-" and "Extra Story". -/
theorem chapterKey_no_numeric_fallback_witness :
    CreateFilename "-" = "ch000.cbz" ∧
    formatChapterText "Extra Story" =
      String.mk (("Extra Story".data.map Char.toLower).map
        (fun c => if c = ' ' then '_' else c)) :=
  chapterKey_no_numeric_fallback "-" "Extra Story" (by decide) (by decide) (by decide)

/-! ### Chapter Set Reconciler

`parser.SortKeys` (src/parser/parser.go:124-135) collects the keys of a map
(modelled as the list of keys, in arbitrary iteration order) and sorts them
with `sort.Strings` (lexicographic ascending; modelled by insertion sort,
which produces the same list for a total order).

`rizzfables.DownloadMangaChapters` (src/unnamed/part_000:273-344) deletes
every already-downloaded archive name from the remote chapter map and sorts
the remaining keys — modelled by `reconcile` below over the remote key list
and the local archive list. -/

def SortKeys (keys : List String) : List String :=
  List.insertionSort (· ≤ ·) keys

def reconcile (remoteKeys localArchives : List String) : List String :=
  SortKeys (remoteKeys.filter (fun k => !(localArchives.contains k)))

/-- Claim C2: `reconcile` returns exactly the remote keys absent from the
local archive set, sorted ascending, and re-running it after archiving the
returned chapters yields an empty work queue. -/
theorem reconcile_spec (remoteKeys localArchives : List String) :
    (∀ k, k ∈ reconcile remoteKeys localArchives ↔
      (k ∈ remoteKeys ∧ k ∉ localArchives)) ∧
    List.Sorted (· ≤ ·) (reconcile remoteKeys localArchives) ∧
    reconcile remoteKeys (localArchives ++ reconcile remoteKeys localArchives) = [] := by
  have hmem : ∀ k, k ∈ reconcile remoteKeys localArchives ↔
      (k ∈ remoteKeys ∧ k ∉ localArchives) := by
    intro k
    simp [reconcile, SortKeys, List.mem_insertionSort, List.mem_filter]
  refine ⟨hmem, ?_, ?_⟩
  · exact List.sorted_insertionSort _ _
  · have hfil : (remoteKeys.filter
        (fun k => !((localArchives ++ reconcile remoteKeys localArchives).contains k))) = [] := by
      rw [List.filter_eq_nil_iff]
      intro k hk
      by_cases hl : k ∈ localArchives
      · simp [hl]
      · have : k ∈ reconcile remoteKeys localArchives := (hmem k).2 ⟨hk, hl⟩
        simp [this]
    rw [reconcile, hfil]
    rfl

/-- Witness for C2 at a concrete remote/local pair (the end-to-end scenario
of the specification: remote ch001 and ch002, local ch001). -/
theorem reconcile_spec_witness :
    ("ch002.cbz" ∈ reconcile ["ch001.cbz", "ch002.cbz"] ["ch001.cbz"] ↔
      ("ch002.cbz" ∈ ["ch001.cbz", "ch002.cbz"] ∧ "ch002.cbz" ∉ ["ch001.cbz"])) ∧
    reconcile ["ch001.cbz", "ch002.cbz"]
      (["ch001.cbz"] ++ reconcile ["ch001.cbz", "ch002.cbz"] ["ch001.cbz"]) = [] :=
  ⟨(reconcile_spec ["ch001.cbz", "ch002.cbz"] ["ch001.cbz"]).1 "ch002.cbz",
   (reconcile_spec ["ch001.cbz", "ch002.cbz"] ["ch001.cbz"]).2.2⟩

/-! ### Archive Builder

A directory is a list of entries; an entry is a regular file (name and raw
byte content, here a `String`) or a subdirectory.  The model keeps the
nesting two levels deep — subdirectory children are regular files — which is
sufficient for every statement below; `filepath.Walk` in the source recurses
to arbitrary depth.

`parser.CreateCbzFromDir` (src/parser/parser.go:288-341) lists the
directory, collects the names of non-directory entries, sorts them
(`sort.Strings`), and writes each file in that order; the archive is
modelled as the ordered list of (entry name, content) pairs.  Since names
within one directory are unique, sorting the (name, content) pairs by name
models sorting the names and then reading each file.

`xbato.createCbz` (src/unnamed/part_001:112-148) instead walks `sourceDir`
recursively with `filepath.Walk` (which visits each directory's entries in
lexical order), skipping directory nodes themselves but descending into
them, and stores nested files under their relative path. -/

inductive FsEntry where
  | file (name content : String)
  | dir (name : String) (children : List (String × String))
  deriving DecidableEq

def FsEntry.entryName : FsEntry → String
  | .file n _ => n
  | .dir n _ => n

/-- Comparison of archive entries by file name (for `sort.Strings`). -/
def byName (a b : String × String) : Prop := a.1 ≤ b.1

instance : DecidableRel byName := fun a b => inferInstanceAs (Decidable (a.1 ≤ b.1))

instance : IsTotal (String × String) byName := ⟨fun a b => le_total a.1 b.1⟩

instance : IsTrans (String × String) byName := ⟨fun _ _ _ h1 h2 => le_trans h1 h2⟩

/-- Strict version of `byName`, used for the determinism argument. -/
def byNameLt (a b : String × String) : Prop := a.1 < b.1

instance : IsAntisymm (String × String) byNameLt :=
  ⟨fun _ _ h1 h2 => absurd h2 (lt_asymm h1)⟩

def byEntryName (a b : FsEntry) : Prop := a.entryName ≤ b.entryName

instance : DecidableRel byEntryName :=
  fun a b => inferInstanceAs (Decidable (a.entryName ≤ b.entryName))

/-- The top-level regular files of a directory, in discovery order. -/
def topFiles (entries : List FsEntry) : List (String × String) :=
  entries.filterMap (fun e => match e with
    | .file n c => some (n, c)
    | .dir _ _ => none)

def CreateCbzFromDir (entries : List FsEntry) : List (String × String) :=
  List.insertionSort byName (topFiles entries)

def createCbz (entries : List FsEntry) : List (String × String) :=
  ((List.insertionSort byEntryName entries).map (fun e => match e with
    | FsEntry.file n c => [(n, c)]
    | FsEntry.dir n ch =>
      (List.insertionSort byName ch).map (fun p => (n ++ "/" ++ p.1, p.2)))).flatten

/-- Claim C5, counterexample.  On a source directory holding a single
subdirectory with one image, `createCbz` (the xbato archive builder named by
the claim) does recurse: the produced archive holds the nested file under
its relative path, while the claim promises that subdirectories are skipped
and only top-level regular files are written (which would give an empty
archive, as `CreateCbzFromDir` indeed produces). -/
theorem createCbz_recurses_counterexample :
    createCbz [FsEntry.dir "sub" [("001.jpg", "x")]] = [("sub/001.jpg", "x")] ∧
    CreateCbzFromDir [FsEntry.dir "sub" [("001.jpg", "x")]] = [] :=
  ⟨rfl, rfl⟩

/-- Claim C5 (amended: the top-level/skip-subdirectories contract holds for
`parser.CreateCbzFromDir`; the xbato `createCbz` variant instead recurses
into subdirectories, as the counterexample shows).  `CreateCbzFromDir`
writes exactly the top-level regular files, in lexicographically sorted
name order, and — given distinct top-level file names — the entry sequence
is independent of the discovery order of the directory listing. -/
theorem createCbzFromDir_spec (entries : List FsEntry) :
    (∀ n c, (n, c) ∈ CreateCbzFromDir entries ↔ FsEntry.file n c ∈ entries) ∧
    List.Sorted byName (CreateCbzFromDir entries) ∧
    (∀ entries' : List FsEntry, entries'.Perm entries →
      (topFiles entries).Pairwise (fun a b => a.1 ≠ b.1) →
      CreateCbzFromDir entries' = CreateCbzFromDir entries) := by
  refine ⟨?_, ?_, ?_⟩
  · intro n c
    constructor
    · intro hmem
      rw [CreateCbzFromDir, List.mem_insertionSort] at hmem
      obtain ⟨e, he, hf⟩ := List.mem_filterMap.1 hmem
      cases e with
      | file n' c' =>
        simp only [Option.some.injEq, Prod.mk.injEq] at hf
        rw [← hf.1, ← hf.2]
        exact he
      | dir n' ch => simp at hf
    · intro hmem
      rw [CreateCbzFromDir, List.mem_insertionSort]
      exact List.mem_filterMap.2 ⟨FsEntry.file n c, hmem, rfl⟩
  · exact List.sorted_insertionSort byName _
  · intro entries' hperm hnd
    have htf : (topFiles entries').Perm (topFiles entries) := hperm.filterMap _
    have hs' : (CreateCbzFromDir entries').Perm (CreateCbzFromDir entries) :=
      ((List.perm_insertionSort byName _).trans htf).trans
        (List.perm_insertionSort byName _).symm
    have hnd1 : (CreateCbzFromDir entries).Pairwise (fun a b => a.1 ≠ b.1) :=
      ((List.perm_insertionSort byName (topFiles entries)).pairwise_iff
        (fun h => Ne.symm h)).2 hnd
    have hnd2 : (CreateCbzFromDir entries').Pairwise (fun a b => a.1 ≠ b.1) :=
      (hs'.pairwise_iff (fun h => Ne.symm h)).2 hnd1
    have hstrict : ∀ l : List (String × String), List.Sorted byName l →
        l.Pairwise (fun a b => a.1 ≠ b.1) → List.Sorted byNameLt l := by
      intro l hsor hne
      exact (hsor.and hne).imp (fun h => lt_of_le_of_ne h.1 h.2)
    exact List.eq_of_perm_of_sorted hs'
      (hstrict _ (List.sorted_insertionSort byName _) hnd2)
      (hstrict _ (List.sorted_insertionSort byName _) hnd1)

/-- Witness for the amended C5 theorem: two discovery orders of the same
two-file directory. -/
theorem createCbzFromDir_spec_witness :
    CreateCbzFromDir [FsEntry.file "002.jpg" "b", FsEntry.file "001.jpg" "a"] =
      CreateCbzFromDir [FsEntry.file "001.jpg" "a", FsEntry.file "002.jpg" "b"] :=
  (createCbzFromDir_spec [FsEntry.file "001.jpg" "a", FsEntry.file "002.jpg" "b"]).2.2
    [FsEntry.file "002.jpg" "b", FsEntry.file "001.jpg" "a"]
    (List.Perm.swap _ _ _) (by decide)

/-! ### Resilient Fetcher, bounded-retry policy:
`webClient.FetchImageBytes` (src/unnamed/part_003:37-86)

The network is an oracle mapping the attempt number (starting at 1) to
`none` (transport error from `client.Do`) or an HTTP response.  The
response body is a byte buffer; `bytes.TrimSpace` followed by a prefix test
against the space-free signatures `<!DOCTYPE` and `<html` depends only on
dropping the leading whitespace, which is how it is modelled. -/

structure HttpResponse where
  status : Nat
  contentType : String
  body : List Nat

/-- ASCII whitespace, for `bytes.TrimSpace`. -/
def isSpaceByte (b : Nat) : Bool :=
  b = 32 || b = 9 || b = 10 || b = 13 || b = 11 || b = 12

/-- The body check of `FetchImageBytes`: after trimming leading whitespace
the body starts with `<!DOCTYPE` or `<html`. -/
def looksLikeHTML (body : List Nat) : Bool :=
  bytesHasPre (asciiBytes "<!DOCTYPE") (body.dropWhile isSpaceByte) ||
  bytesHasPre (asciiBytes "<html") (body.dropWhile isSpaceByte)

/-- Model of Go `strings.HasPrefix(s, pre)` with the arguments flipped. -/
def strHasPre (pre s : String) : Bool :=
  pre.data.isPrefixOf s.data

/-- The value returned by one of the `return` statements of
`FetchImageBytes`; each constructor corresponds to one return site. -/
inductive FetchOutcome where
  /-- the body bytes are returned with a nil error. -/
  | success (body : List Nat)
  /-- return for a non-200, non-retryable status. -/
  | badStatus (code : Nat)
  /-- return for an HTML body disguised as an image. -/
  | htmlBody
  /-- return for a Content-Type that does not start with `image/`. -/
  | badContentType (ct : String)
  /-- return after `maxRetries` failed attempts. -/
  | exhaustedRetries
  deriving DecidableEq

/-- One iteration of the retry loop: either the loop continues with the
next attempt (transport error, HTTP 5xx or 525) or the function returns. -/
inductive AttemptStep where
  | retry
  | done (out : FetchOutcome)

def fetchAttempt : Option HttpResponse → AttemptStep
  | none => .retry
  | some r =>
    if (500 ≤ r.status ∧ r.status < 600) ∨ r.status = 525 then .retry
    else if r.status ≠ 200 then .done (.badStatus r.status)
    else if looksLikeHTML r.body then .done .htmlBody
    else if !(strHasPre "image/" r.contentType) then .done (.badContentType r.contentType)
    else .done (.success r.body)

def fetchLoop (env : Nat → Option HttpResponse) : Nat → Nat → FetchOutcome
  | _, 0 => .exhaustedRetries
  | attempt, fuel + 1 =>
    match fetchAttempt (env attempt) with
    | .retry => fetchLoop env (attempt + 1) fuel
    | .done out => out

/-- The retry loop of `FetchImageBytes`, with `maxRetries = 3`. -/
def FetchImageBytes (env : Nat → Option HttpResponse) : FetchOutcome :=
  fetchLoop env 1 3

/-- Claim C3: for the image fetcher, a 200 response whose body begins (after
leading whitespace) with `<!DOCTYPE` or `<html` is a failure despite the
status; a 200 response with a Content-Type not starting with `image/` is a
hard, non-retried failure; and a 5xx or 525 status is retried — the fetch
continues with the remaining attempts instead of failing on the spot, so a
later good attempt still succeeds. -/
theorem fetchImageBytes_validation (env : Nat → Option HttpResponse) (r : HttpResponse)
    (h1 : env 1 = some r) :
    (r.status = 200 → looksLikeHTML r.body = true →
      FetchImageBytes env = .htmlBody) ∧
    (r.status = 200 → looksLikeHTML r.body = false → strHasPre "image/" r.contentType = false →
      FetchImageBytes env = .badContentType r.contentType) ∧
    ((500 ≤ r.status ∧ r.status < 600) ∨ r.status = 525 →
      FetchImageBytes env = fetchLoop env 2 2 ∧
      (∀ good : HttpResponse, env 2 = some good → good.status = 200 →
        looksLikeHTML good.body = false → strHasPre "image/" good.contentType = true →
        FetchImageBytes env = .success good.body)) := by
  refine ⟨?_, ?_, ?_⟩
  · intro hst hhtml
    have : ¬ ((500 ≤ r.status ∧ r.status < 600) ∨ r.status = 525) := by omega
    simp [FetchImageBytes, fetchLoop, fetchAttempt, h1, hst, hhtml, this]
  · intro hst hhtml hct
    have : ¬ ((500 ≤ r.status ∧ r.status < 600) ∨ r.status = 525) := by omega
    simp [FetchImageBytes, fetchLoop, fetchAttempt, h1, hst, hhtml, hct, this]
  · intro hst
    have hretry : fetchAttempt (env 1) = .retry := by
      simp [fetchAttempt, h1, hst]
    refine ⟨by simp [FetchImageBytes, fetchLoop, hretry], ?_⟩
    intro good h2 hgst hghtml hgct
    have hnr : ¬ ((500 ≤ good.status ∧ good.status < 600) ∨ good.status = 525) := by omega
    have e1 : FetchImageBytes env = fetchLoop env 2 2 := by
      simp [FetchImageBytes, fetchLoop, hretry]
    rw [e1]
    simp [fetchLoop, fetchAttempt, h2, hgst, hghtml, hgct, hnr]

/-- Witness for C3: a 525 first attempt followed by a good image response
succeeds, and an all-HTML environment fails with the html outcome. -/
theorem fetchImageBytes_validation_witness :
    FetchImageBytes (fun n => if n = 1 then some ⟨525, "text/html", []⟩
      else some ⟨200, "image/png", [0xFF, 0xD8, 0xFF]⟩) =
      .success [0xFF, 0xD8, 0xFF] ∧
    FetchImageBytes (fun _ => some ⟨200, "text/html", asciiBytes "<html>error"⟩) =
      .htmlBody := by
  constructor
  · exact ((fetchImageBytes_validation _ ⟨525, "text/html", []⟩ rfl).2.2
      (by right; rfl)).2 ⟨200, "image/png", [0xFF, 0xD8, 0xFF]⟩ rfl rfl (by decide) (by decide)
  · exact (fetchImageBytes_validation _ ⟨200, "text/html", asciiBytes "<html>error"⟩ rfl).1
      rfl (by decide)

/-! ### Resilient Fetcher, exponential backoff:
`webClient.FetchWithBackoff` (src/unnamed/part_003:180-233)

Constants from the source: `initialBackoff = 10s`, `maxBackoff = 320s`,
`maxRetriesAtMax = 3`.  Backoff durations are modelled in seconds.  The
network oracle maps the attempt number to its outcome: a timeout-class
error (retried with backoff), any other error (returned immediately, as is
a body-read failure), or a successful read of the body.  The loop in the
source has no bound on the loop variable itself; the model runs it on
explicit fuel, and `fetchWithBackoff_bounded` proves that 8 units of fuel
are never exhausted, which is the termination claim. -/

inductive NetAttempt where
  | timeout
  | netErr
  | ok (body : List Nat)

inductive BackoffResult where
  /-- the body is returned; `sleeps` lists the backoff sleeps performed. -/
  | success (body : List Nat) (sleeps : List Nat)
  /-- the permanent failure returned after `maxRetriesAtMax` retries at the
  320-second ceiling. -/
  | maxRetriesExceeded (sleeps : List Nat)
  /-- a non-timeout error returned as-is. -/
  | otherError (sleeps : List Nat)
  /-- marker for running out of fuel; never reached from `FetchWithBackoff`. -/
  | outOfFuel
  deriving DecidableEq

def fetchBackoffLoop (env : Nat → NetAttempt) :
    Nat → Nat → Nat → Nat → List Nat → BackoffResult
  | 0, _, _, _, _ => .outOfFuel
  | fuel + 1, attempt, backoff, retriesAtMax, sleeps =>
    match env attempt with
    | .ok body => .success body sleeps
    | .netErr => .otherError sleeps
    | .timeout =>
      if backoff < 320 then
        fetchBackoffLoop env fuel (attempt + 1) (min (backoff * 2) 320) retriesAtMax
          (sleeps ++ [backoff])
      else if retriesAtMax + 1 ≥ 3 then .maxRetriesExceeded (sleeps ++ [backoff])
      else fetchBackoffLoop env fuel (attempt + 1) backoff (retriesAtMax + 1)
        (sleeps ++ [backoff])

def FetchWithBackoff (env : Nat → NetAttempt) : BackoffResult :=
  fetchBackoffLoop env 8 1 10 0 []

/-- If no attempt ever succeeds, the backoff loop can only end in an error
result, never in a success. -/
lemma fetchBackoffLoop_no_success (env : Nat → NetAttempt)
    (h : ∀ n body, env n ≠ .ok body) :
    ∀ fuel attempt b r sleeps body s,
      fetchBackoffLoop env fuel attempt b r sleeps ≠ .success body s := by
  intro fuel
  induction fuel with
  | zero => intro attempt b r sleeps body s; simp [fetchBackoffLoop]
  | succ f ih =>
    intro attempt b r sleeps body s
    cases hn : env attempt with
    | ok bb => exact absurd hn (h attempt bb)
    | netErr => simp [fetchBackoffLoop, hn]
    | timeout =>
      simp only [fetchBackoffLoop, hn]
      split_ifs
      · exact ih _ _ _ _ _ _
      · simp
      · exact ih _ _ _ _ _ _

/-- Claim C4: the exponential-backoff fetch always terminates within the 8
attempts that its fuel bound allows (the `outOfFuel` marker is unreachable);
when every attempt times out it sleeps 10, 20, 40, 80, 160 seconds, then
three more times at the 320-second ceiling, and returns the permanent
max-retries failure; and whenever no attempt succeeds the result is never a
success — the loop cannot run forever. -/
theorem fetchWithBackoff_bounded (env : Nat → NetAttempt) :
    FetchWithBackoff env ≠ .outOfFuel ∧
    ((∀ n, env n = .timeout) →
      FetchWithBackoff env = .maxRetriesExceeded [10, 20, 40, 80, 160, 320, 320, 320]) ∧
    ((∀ n body, env n ≠ .ok body) →
      ∀ body sleeps, FetchWithBackoff env ≠ .success body sleeps) := by
  refine ⟨?_, ?_, ?_⟩
  · unfold FetchWithBackoff
    cases h1 : env 1 <;> simp [fetchBackoffLoop, h1]
    cases h2 : env 2 <;> simp [fetchBackoffLoop, h2]
    cases h3 : env 3 <;> simp [fetchBackoffLoop, h3]
    cases h4 : env 4 <;> simp [fetchBackoffLoop, h4]
    cases h5 : env 5 <;> simp [fetchBackoffLoop, h5]
    cases h6 : env 6 <;> simp [fetchBackoffLoop, h6]
    cases h7 : env 7 <;> simp [fetchBackoffLoop, h7]
    cases h8 : env 8 <;> simp [fetchBackoffLoop, h8]
  · intro h
    simp [FetchWithBackoff, fetchBackoffLoop, h]
  · intro h body sleeps
    exact fetchBackoffLoop_no_success env h 8 1 10 0 [] body sleeps

/-- Witness for C4 at the all-timeout environment. -/
theorem fetchWithBackoff_bounded_witness :
    FetchWithBackoff (fun _ => .timeout) =
      .maxRetriesExceeded [10, 20, 40, 80, 160, 320, 320, 320] :=
  (fetchWithBackoff_bounded (fun _ => .timeout)).2.1 (fun _ => rfl)

end Scrape
